import Mathlib

/-!
Shallow embedding of the `inet` DuckDB extension
(src/extension/inet/inet-extension.cpp) and proofs about it.

The parser `TryParseIPAddress` is a goto-structured scanner over raw bytes;
we embed the input as a `List Char` of ASCII characters and the three labeled
blocks (`parse_number`, `parse_dot`, `parse_mask`) as recursive functions.
The C accumulator `int32_t address` is modelled as a mathematical integer with
explicit two's-complement wrap-around at 32 bits (`wrap32`), matching the
compiled behaviour of signed 32-bit arithmetic; assignment of that `int32_t`
into the 128-bit `hugeint_t` struct field preserves the signed value
(sign extension), so the struct field is an `Int` holding the same value.
-/

deriving instance DecidableEq for Except

namespace Inet

/-- The struct `IPAddress { hugeint_t address; int32_t mask; }`.
`address` models the 128-bit signed `hugeint_t`, `mask` the `int32_t`. -/
structure IPAddress where
  address : Int
  mask : Int
deriving Repr, DecidableEq

/-- The character test `data[c] >= '0' && data[c] <= '9'` from the scan loop. -/
def isIPDigit (ch : Char) : Bool :=
  '0' ≤ ch && ch ≤ '9'

/-- Numeric value of one ASCII digit character. -/
def digitVal (ch : Char) : Nat :=
  ch.toNat - 48

/-- Decimal value of a digit string (most significant digit first). -/
def digitsVal (s : List Char) : Nat :=
  s.foldl (fun a ch => a * 10 + digitVal ch) 0

/-- Modelled from the spec: `TryCast::Operation<string_t, uint8_t>` is DuckDB's
generic string-to-unsigned-8-bit conversion, a host collaborator whose code is
not part of this repository. Per the spec's boundary contract it rejects empty
input, non-digit characters, and values outside [0,255], and otherwise yields
the decimal value of the digit run. -/
def tryCastUInt8 (s : List Char) : Option Nat :=
  if s ≠ [] ∧ s.all isIPDigit = true ∧ digitsVal s ≤ 255 then some (digitsVal s)
  else none

/-- The helper `IPAddressError`: formats the failure message
`Failed to convert string "<input>" to inet: <error>` (the `string *error_message`
out-parameter is modelled as the `Except.error` payload). -/
def IPAddressError (input : List Char) (error : String) : String :=
  "Failed to convert string \"" ++ String.mk input ++ ("\" to inet: " ++ error)

/-- Two's-complement wrap-around of an integer into the `int32_t` range. -/
def wrap32 (n : Int) : Int :=
  (n + 2 ^ 31) % 2 ^ 32 - 2 ^ 31

/-- The `parse_mask` block: at entry `rest` is the input from cursor `c` on and
`octetRun` is the slice `data[start..c)` recorded by the most recent
`parse_number` scan (the fourth octet's digit run - the code never rescans
after the slash and never advances `c` past it). -/
def parseMask (input : List Char) (octetRun : List Char) (address : Int)
    (rest : List Char) : Except String IPAddress :=
  match rest with
  | [] =>
    -- no mask, default to 32
    .ok { address := address, mask := 32 }
  | ch :: _ =>
    if ch = '/' then
      match tryCastUInt8 octetRun with
      | some mask => .ok { address := address, mask := (mask : Int) }
      | none => .error (IPAddressError input "Expected a number between 0 and 255")
    else
      .error (IPAddressError input "Expected a slash")

/-- The `parse_number` / `parse_dot` blocks. `rest` is the input from the
cursor on; the while-loop's maximal digit scan is `takeWhile`/`dropWhile`;
`address += number << (8 * number_count)` is 32-bit signed arithmetic,
modelled by `wrap32`. The extra argument `left` is the remaining octet
capacity `3 - number_count`, the structural bound the code itself maintains:
`parse_number` jumps back to itself only when `number_count + 1 != 4`, so
along every execution `number_count + left = 3` and the `left = 0` branch
below is unreachable (when `left = 0`, `number_count = 3` and the
`number_count + 1 = 4` test has already diverted to `parse_mask`). -/
def parseLoop (input : List Char) (rest : List Char) (number_count : Nat)
    (address : Int) (left : Nat) : Except String IPAddress :=
  if rest.takeWhile isIPDigit = [] then
    .error (IPAddressError input "Expected a number")
  else
    match tryCastUInt8 (rest.takeWhile isIPDigit) with
    | none => .error (IPAddressError input "Expected a number between 0 and 255")
    | some number =>
      let address2 := wrap32 (address + (number : Int) * 2 ^ (8 * number_count))
      if number_count + 1 = 4 then
        parseMask input (rest.takeWhile isIPDigit) address2 (rest.dropWhile isIPDigit)
      else
        match rest.dropWhile isIPDigit with
        | [] => .error (IPAddressError input "Expected a dot")
        | ch :: rest3 =>
          if ch = '.' then
            match left with
            | 0 => .error (IPAddressError input "Expected a dot")
            | left2 + 1 => parseLoop input rest3 (number_count + 1) address2 left2
          else
            .error (IPAddressError input "Expected a dot")

/-- `TryParseIPAddress`: starts at `parse_number` with cursor 0,
`number_count = 0`, `address = 0` (octet capacity 3 left after the first
octet-scan entry). -/
def TryParseIPAddress (input : List Char) : Except String IPAddress :=
  parseLoop input input 0 0 3

/-! Batch conversion adapter `VarcharToINETCast`.

The host's `UnifiedVectorFormat` row access (`vdata.sel->get_index(i)` plus
`vdata.validity.RowIsValid(idx)` plus `input[idx]`) is modelled as a list of
optional strings, one entry per logical row `i`: `none` is an invalid (null)
row, `some s` a valid row holding string `s`.  The output struct vector's two
child arrays `address_data`/`mask_data` and its validity mask are modelled as
lists updated positionally; the `string *error_message` out-parameter together
with the `bool` return is an `Option String` (`none` = returned `true`); the
third result component counts the number of `TryParseIPAddress` invocations
performed, which instruments the loop for the spec's "parser invocation"
statements without altering it. -/

/-- Output buffers of the batch cast: `address_data`, `mask_data` and the
result vector's null mask (`FlatVector::SetNull`). -/
structure BatchState where
  addressData : List Int
  maskData : List Int
  nullMask : List Bool
deriving Repr, DecidableEq

/-- The `for (idx_t i = 0; i < count; i++)` loop of `VarcharToINETCast`,
processing the rows from index `i` on. -/
def castLoop (inputs : List (Option (List Char))) (i : Nat) (st : BatchState) :
    BatchState × Option String × Nat :=
  match inputs with
  | [] => (st, none, 0)
  | none :: rows =>
    castLoop rows (i + 1) { st with nullMask := st.nullMask.set i true }
  | some s :: rows =>
    match TryParseIPAddress s with
    | .error msg => (st, some msg, 1)
    | .ok inet =>
      let st2 := { st with addressData := st.addressData.set i inet.address,
                           maskData := st.maskData.set i inet.mask }
      let r := castLoop rows (i + 1) st2
      (r.1, r.2.1, r.2.2 + 1)

/-- `VarcharToINETCast`: run the row loop from row 0. -/
def VarcharToINETCast (inputs : List (Option (List Char))) (st : BatchState) :
    BatchState × Option String × Nat :=
  castLoop inputs 0 st

/-- Outcome of one cast-function invocation, separating the two failure
channels of the host cast interface: returning `false` with an assigned
`error_message` (a soft, per-call data error) versus a C++ exception escaping
the function (a programming fault that aborts loudly). -/
inductive CastOutcome (α : Type) where
  | ok (value : α)
  | softError (message : String)
  | thrown (e : String)
deriving Repr, DecidableEq

/-- `INETToVarcharCast`: the body is the single statement
`throw InternalException("INET to Varchar cast");`. -/
def INETToVarcharCast (source : List (Option IPAddress)) (count : Nat) :
    CastOutcome (List (Option String)) :=
  .thrown "INET to Varchar cast"

/-! Step machine view of `TryParseIPAddress`, for the termination claim.

The three labels `parse_number`, `parse_dot`, `parse_mask` become a program
counter; one machine step executes one labeled block (the inner digit-scan
while loop of `parse_number` is the terminating `takeWhile` computation).
The machine state carries the code's locals: cursor `c`, the recorded run
start `start`, `number_count` and the `int32_t` accumulator. -/

/-- Program counter: which labeled block runs next. -/
inductive Pc where
  | parseNumberPc
  | parseDotPc
  | parseMaskPc
deriving Repr, DecidableEq

/-- Machine state of the goto-structured scanner. -/
structure MState where
  c : Nat
  start : Nat
  number_count : Nat
  address : Int
  pc : Pc
deriving Repr, DecidableEq

/-- One labeled block of `TryParseIPAddress`: either a jump to the next block
(`Sum.inl`) or a return (`Sum.inr`). -/
def stepBlock (input : List Char) (st : MState) : MState ⊕ Except String IPAddress :=
  match st.pc with
  | .parseNumberPc =>
    let start := st.c
    let c2 := st.c + ((input.drop st.c).takeWhile isIPDigit).length
    if start = c2 then
      .inr (.error (IPAddressError input "Expected a number"))
    else
      match tryCastUInt8 ((input.drop start).take (c2 - start)) with
      | none => .inr (.error (IPAddressError input "Expected a number between 0 and 255"))
      | some number =>
        let address2 := wrap32 (st.address + (number : Int) * 2 ^ (8 * st.number_count))
        let count2 := st.number_count + 1
        .inl { c := c2, start := start, number_count := count2, address := address2,
               pc := if count2 = 4 then .parseMaskPc else .parseDotPc }
  | .parseDotPc =>
    if h : st.c < input.length then
      if input[st.c] = '.' then
        .inl { st with c := st.c + 1, pc := .parseNumberPc }
      else
        .inr (.error (IPAddressError input "Expected a dot"))
    else
      .inr (.error (IPAddressError input "Expected a dot"))
  | .parseMaskPc =>
    if h : st.c < input.length then
      if input[st.c] = '/' then
        match tryCastUInt8 ((input.drop st.start).take (st.c - st.start)) with
        | some mask => .inr (.ok { address := st.address, mask := (mask : Int) })
        | none => .inr (.error (IPAddressError input "Expected a number between 0 and 255"))
      else
        .inr (.error (IPAddressError input "Expected a slash"))
    else
      -- no mask, default to 32
      .inr (.ok { address := st.address, mask := 32 })

/-- Run the machine for at most `fuel` block steps; `Sum.inl` means the fuel
ran out before the function returned. -/
def machineRun (input : List Char) (fuel : Nat) (st : MState) :
    MState ⊕ Except String IPAddress :=
  match fuel with
  | 0 => .inl st
  | fuel2 + 1 =>
    match stepBlock input st with
    | .inr out => .inr out
    | .inl st2 => machineRun input fuel2 st2

/-- Initial machine state: cursor 0, `number_count = 0`, `address = 0`,
control at `parse_number`. -/
def initMState : MState :=
  { c := 0, start := 0, number_count := 0, address := 0, pc := .parseNumberPc }

/-! Helper definitions used to state the claims. -/

/-- Decimal digit character. -/
def digitChar (k : Nat) : Char :=
  Char.ofNat (48 + k)

/-- Decimal numeral of `n` as a character list, for `n < 1000` (enough for
octet values); used to state claims about concrete inputs `a.b.c.d`. -/
def decStr (n : Nat) : List Char :=
  if n < 10 then [digitChar n]
  else if n < 100 then [digitChar (n / 10), digitChar (n % 10)]
  else [digitChar (n / 100), digitChar (n / 10 % 10), digitChar (n % 10)]

/-- The input string `a.b.c.d` (decimal, dot-separated, no mask suffix). -/
def ipString (a b c d : Nat) : List Char :=
  decStr a ++ '.' :: (decStr b ++ '.' :: (decStr c ++ '.' :: decStr d))

/-- Value of the `int32_t` accumulator after the four updates
`address += number << (8 * number_count)` on octets `a, b, c, d`. -/
def addr4 (a b c d : Nat) : Int :=
  wrap32 (wrap32 (wrap32 (wrap32 (0 + (a : Int) * 2 ^ (8 * 0)) + (b : Int) * 2 ^ (8 * 1))
    + (c : Int) * 2 ^ (8 * 2)) + (d : Int) * 2 ^ (8 * 3))

/-- Byte `k` of the 128-bit two's-complement representation of a `hugeint_t`
value `n`. -/
def hugeintByte (n : Int) (k : Nat) : Nat :=
  ((n % 2 ^ 128).toNat / 2 ^ (8 * k)) % 256

/-- Null-mask effect of a run of null rows: set entries `i, i+1, ..., i+n-1`
to `true`. -/
def setTrueRange (v : List Bool) (i n : Nat) : List Bool :=
  match n with
  | 0 => v
  | m + 1 => setTrueRange (v.set i true) (i + 1) m

end Inet

namespace Inet

theorem takeWhile_append_all (p : Char → Bool) (s rest : List Char)
    (hs : s.all p = true) :
    (s ++ rest).takeWhile p = s ++ rest.takeWhile p := by
  induction s with
  | nil => simp
  | cons a t ih =>
    simp only [List.all_cons, Bool.and_eq_true] at hs
    simp [List.takeWhile_cons, hs.1, ih hs.2]

theorem dropWhile_append_all (p : Char → Bool) (s rest : List Char)
    (hs : s.all p = true) :
    (s ++ rest).dropWhile p = rest.dropWhile p := by
  induction s with
  | nil => simp
  | cons a t ih =>
    simp only [List.all_cons, Bool.and_eq_true] at hs
    simp [List.dropWhile_cons, hs.1, ih hs.2]

theorem dropWhile_of_takeWhile_nil (p : Char → Bool) (l : List Char)
    (h : l.takeWhile p = []) : l.dropWhile p = l := by
  cases l with
  | nil => rfl
  | cons a t =>
    by_cases hp : p a
    · simp [List.takeWhile_cons, hp] at h
    · simp [List.dropWhile_cons, hp]

theorem tryCastUInt8_eq_some (s : List Char) (h1 : s ≠ []) (h2 : s.all isIPDigit = true)
    (h3 : digitsVal s ≤ 255) : tryCastUInt8 s = some (digitsVal s) := by
  simp [tryCastUInt8, h1, h2, h3]

theorem parseLoop_octet (input s rest : List Char) (k : Nat) (addr : Int) (left : Nat)
    (hs : s ≠ []) (hdig : s.all isIPDigit = true) (hval : digitsVal s ≤ 255)
    (hrest : rest.takeWhile isIPDigit = []) :
    parseLoop input (s ++ rest) k addr left =
      if k + 1 = 4 then
        parseMask input s (wrap32 (addr + (digitsVal s : Int) * 2 ^ (8 * k))) rest
      else
        match rest with
        | [] => Except.error (IPAddressError input "Expected a dot")
        | ch :: rest3 =>
          if ch = '.' then
            match left with
            | 0 => Except.error (IPAddressError input "Expected a dot")
            | left2 + 1 =>
              parseLoop input rest3 (k + 1)
                (wrap32 (addr + (digitsVal s : Int) * 2 ^ (8 * k))) left2
          else Except.error (IPAddressError input "Expected a dot")
    := by
  have ht : (s ++ rest).takeWhile isIPDigit = s := by
    rw [takeWhile_append_all _ _ _ hdig, hrest, List.append_nil]
  have hd : (s ++ rest).dropWhile isIPDigit = rest := by
    rw [dropWhile_append_all _ _ _ hdig, dropWhile_of_takeWhile_nil _ _ hrest]
  rw [parseLoop, ht, hd, tryCastUInt8_eq_some s hs hdig hval]
  simp only [hs, if_false, reduceIte]
  split
  · rfl
  · cases rest <;> rfl

theorem takeWhile_cons_false (p : Char → Bool) (a : Char) (l : List Char)
    (h : p a = false) : (a :: l).takeWhile p = [] := by
  simp [List.takeWhile_cons, h]

theorem parseLoop_octet_dot (input s rest3 : List Char) (k : Nat) (addr : Int) (left2 : Nat)
    (hs : s ≠ []) (hdig : s.all isIPDigit = true) (hval : digitsVal s ≤ 255)
    (hk : ¬ k + 1 = 4) :
    parseLoop input (s ++ '.' :: rest3) k addr (left2 + 1) =
      parseLoop input rest3 (k + 1) (wrap32 (addr + (digitsVal s : Int) * 2 ^ (8 * k))) left2 := by
  rw [parseLoop_octet input s ('.' :: rest3) k addr (left2 + 1) hs hdig hval
    (takeWhile_cons_false _ _ _ (by decide))]
  simp [hk]

theorem parseLoop_octet_mask (input s rest : List Char) (addr : Int) (left : Nat)
    (hs : s ≠ []) (hdig : s.all isIPDigit = true) (hval : digitsVal s ≤ 255)
    (hrest : rest.takeWhile isIPDigit = []) :
    parseLoop input (s ++ rest) 3 addr left =
      parseMask input s (wrap32 (addr + (digitsVal s : Int) * 2 ^ (8 * 3))) rest := by
  rw [parseLoop_octet input s rest 3 addr left hs hdig hval hrest]
  simp

theorem parseLoop_octet_end (input s : List Char) (k : Nat) (addr : Int) (left : Nat)
    (hs : s ≠ []) (hdig : s.all isIPDigit = true) (hval : digitsVal s ≤ 255)
    (hk : ¬ k + 1 = 4) :
    parseLoop input s k addr left = .error (IPAddressError input "Expected a dot") := by
  conv_lhs => rw [← List.append_nil s]
  rw [parseLoop_octet input s [] k addr left hs hdig hval rfl]
  simp [hk]

theorem parseMask_noMask (input octetRun : List Char) (addr : Int) :
    parseMask input octetRun addr [] = .ok { address := addr, mask := 32 } := rfl

theorem parseMask_slash (input octetRun tail : List Char) (addr : Int)
    (hs : octetRun ≠ []) (hdig : octetRun.all isIPDigit = true)
    (hval : digitsVal octetRun ≤ 255) :
    parseMask input octetRun addr ('/' :: tail) =
      .ok { address := addr, mask := (digitsVal octetRun : Int) } := by
  rw [parseMask, tryCastUInt8_eq_some octetRun hs hdig hval]
  simp

theorem parseLoop_four (input s1 s2 s3 s4 rest4 : List Char)
    (h1 : s1 ≠ []) (h1d : s1.all isIPDigit = true) (h1v : digitsVal s1 ≤ 255)
    (h2 : s2 ≠ []) (h2d : s2.all isIPDigit = true) (h2v : digitsVal s2 ≤ 255)
    (h3 : s3 ≠ []) (h3d : s3.all isIPDigit = true) (h3v : digitsVal s3 ≤ 255)
    (h4 : s4 ≠ []) (h4d : s4.all isIPDigit = true) (h4v : digitsVal s4 ≤ 255)
    (hrest4 : rest4.takeWhile isIPDigit = []) :
    parseLoop input (s1 ++ '.' :: (s2 ++ '.' :: (s3 ++ '.' :: (s4 ++ rest4)))) 0 0 3 =
      parseMask input s4 (addr4 (digitsVal s1) (digitsVal s2) (digitsVal s3) (digitsVal s4))
        rest4 := by
  rw [parseLoop_octet_dot input s1 _ 0 0 2 h1 h1d h1v (by decide)]
  rw [parseLoop_octet_dot input s2 _ 1 _ 1 h2 h2d h2v (by decide)]
  rw [parseLoop_octet_dot input s3 _ 2 _ 0 h3 h3d h3v (by decide)]
  rw [parseLoop_octet_mask input s4 rest4 _ 0 h4 h4d h4v hrest4]
  rfl

set_option maxRecDepth 4000 in
theorem decStr_spec : ∀ n < 256, decStr n ≠ [] ∧ (decStr n).all isIPDigit = true ∧
    digitsVal (decStr n) = n := by decide

theorem addr4_eq (a b c d : Nat) (ha : a ≤ 255) (hb : b ≤ 255) (hc : c ≤ 255)
    (hd2 : d ≤ 255) :
    addr4 a b c d = (a + b * 256 + c * 65536 + d * 16777216 : Int)
      - (if 128 ≤ d then 4294967296 else 0) := by
  unfold addr4 wrap32
  norm_num
  split <;> omega

theorem hugeintByte_addr4 (a b c d : Nat) (ha : a ≤ 255) (hb : b ≤ 255) (hc : c ≤ 255)
    (hd2 : d ≤ 255) :
    hugeintByte (addr4 a b c d) 0 = a ∧ hugeintByte (addr4 a b c d) 1 = b ∧
    hugeintByte (addr4 a b c d) 2 = c ∧ hugeintByte (addr4 a b c d) 3 = d := by
  rw [addr4_eq a b c d ha hb hc hd2]
  by_cases hd3 : 128 ≤ d <;>
    simp only [hd3, if_true, if_false, reduceIte] <;>
    refine ⟨?_, ?_, ?_, ?_⟩ <;>
    · unfold hugeintByte
      norm_num
      omega

theorem parseLoop_four_noslash (input s1 s2 s3 s4 : List Char)
    (h1 : s1 ≠ []) (h1d : s1.all isIPDigit = true) (h1v : digitsVal s1 ≤ 255)
    (h2 : s2 ≠ []) (h2d : s2.all isIPDigit = true) (h2v : digitsVal s2 ≤ 255)
    (h3 : s3 ≠ []) (h3d : s3.all isIPDigit = true) (h3v : digitsVal s3 ≤ 255)
    (h4 : s4 ≠ []) (h4d : s4.all isIPDigit = true) (h4v : digitsVal s4 ≤ 255) :
    parseLoop input (s1 ++ '.' :: (s2 ++ '.' :: (s3 ++ '.' :: s4))) 0 0 3 =
      .ok { address := addr4 (digitsVal s1) (digitsVal s2) (digitsVal s3) (digitsVal s4),
            mask := 32 } := by
  rw [parseLoop_octet_dot input s1 _ 0 0 2 h1 h1d h1v (by decide)]
  rw [parseLoop_octet_dot input s2 _ 1 _ 1 h2 h2d h2v (by decide)]
  rw [parseLoop_octet_dot input s3 _ 2 _ 0 h3 h3d h3v (by decide)]
  conv_lhs => rw [← List.append_nil s4]
  rw [parseLoop_octet_mask input s4 [] _ 0 h4 h4d h4v rfl]
  rfl

/-- Claim C7: for the empty string and for every input whose first character is not
an ASCII digit, parsing fails and the error message is exactly
`Failed to convert string "<original input>" to inet: Expected a number`,
with the original input echoed verbatim. -/
theorem c7_expectedNumber (input : List Char)
    (h : input = [] ∨ ∃ ch t, input = ch :: t ∧ isIPDigit ch = false) :
    TryParseIPAddress input =
      .error ("Failed to convert string \"" ++ String.mk input ++
        "\" to inet: Expected a number") := by
  have htw : input.takeWhile isIPDigit = [] := by
    rcases h with h | ⟨ch, t, he, hch⟩
    · rw [h]; rfl
    · rw [he]; exact takeWhile_cons_false _ _ _ hch
  rw [TryParseIPAddress, parseLoop, htw]
  rfl

theorem c7_witness : TryParseIPAddress ['x'] =
    .error ("Failed to convert string \"" ++ String.mk ['x'] ++
      "\" to inet: Expected a number") :=
  c7_expectedNumber ['x'] (Or.inr ⟨'x', [], rfl, by decide⟩)

/-- Claim C8: every input consisting of one, two or three valid dot-separated octet
runs that ends at end-of-input fails with the `Expected a dot` error (the
end-of-input case while expecting a dot is a missing dot, not a missing
number). -/
theorem c8_expectedDot (s1 s2 s3 input : List Char)
    (h1 : s1 ≠ []) (h1d : s1.all isIPDigit = true) (h1v : digitsVal s1 ≤ 255)
    (h2 : s2 ≠ []) (h2d : s2.all isIPDigit = true) (h2v : digitsVal s2 ≤ 255)
    (h3 : s3 ≠ []) (h3d : s3.all isIPDigit = true) (h3v : digitsVal s3 ≤ 255)
    (hshape : input = s1 ∨ input = s1 ++ '.' :: s2 ∨
      input = s1 ++ '.' :: (s2 ++ '.' :: s3)) :
    TryParseIPAddress input =
      .error ("Failed to convert string \"" ++ String.mk input ++
        "\" to inet: Expected a dot") := by
  rcases hshape with he | he | he <;> rw [he, TryParseIPAddress]
  · rw [parseLoop_octet_end _ s1 0 0 3 h1 h1d h1v (by decide)]; rfl
  · rw [parseLoop_octet_dot _ s1 _ 0 0 2 h1 h1d h1v (by decide),
      parseLoop_octet_end _ s2 1 _ 2 h2 h2d h2v (by decide)]; rfl
  · rw [parseLoop_octet_dot _ s1 _ 0 0 2 h1 h1d h1v (by decide),
      parseLoop_octet_dot _ s2 _ 1 _ 1 h2 h2d h2v (by decide),
      parseLoop_octet_end _ s3 2 _ 1 h3 h3d h3v (by decide)]; rfl

theorem c8_witness : TryParseIPAddress "1.2.3".data =
    .error ("Failed to convert string \"" ++ String.mk "1.2.3".data ++
      "\" to inet: Expected a dot") :=
  c8_expectedDot ['1'] ['2'] ['3'] "1.2.3".data (by decide) (by decide) (by decide)
    (by decide) (by decide) (by decide) (by decide) (by decide) (by decide)
    (Or.inr (Or.inr rfl))

/-- Claim C4: for all octet values `a, b, c, d` in `[0,255]`, parsing the string
`a.b.c.d` (no slash) succeeds with `mask == 32`, and extracting bytes 0-3 of
the 128-bit `address` recovers exactly `(a, b, c, d)` - the pack/unpack
round-trip is lossless for all 256^4 combinations. -/
theorem c4_roundTrip (a b c d : Nat) (ha : a ≤ 255) (hb : b ≤ 255) (hc : c ≤ 255)
    (hd2 : d ≤ 255) :
    TryParseIPAddress (ipString a b c d) =
      .ok { address := addr4 a b c d, mask := 32 } ∧
    hugeintByte (addr4 a b c d) 0 = a ∧ hugeintByte (addr4 a b c d) 1 = b ∧
    hugeintByte (addr4 a b c d) 2 = c ∧ hugeintByte (addr4 a b c d) 3 = d := by
  obtain ⟨n1, d1, v1⟩ := decStr_spec a (by omega)
  obtain ⟨n2, d2, v2⟩ := decStr_spec b (by omega)
  obtain ⟨n3, d3, v3⟩ := decStr_spec c (by omega)
  obtain ⟨n4, d4, v4⟩ := decStr_spec d (by omega)
  refine ⟨?_, hugeintByte_addr4 a b c d ha hb hc hd2⟩
  rw [TryParseIPAddress, ipString]
  rw [parseLoop_four_noslash _ (decStr a) (decStr b) (decStr c) (decStr d)
    n1 d1 (by rw [v1]; exact ha) n2 d2 (by rw [v2]; exact hb)
    n3 d3 (by rw [v3]; exact hc) n4 d4 (by rw [v4]; exact hd2)]
  rw [v1, v2, v3, v4]

theorem c4_witness :
    TryParseIPAddress (ipString 255 0 1 200) =
      .ok { address := addr4 255 0 1 200, mask := 32 } ∧
    hugeintByte (addr4 255 0 1 200) 0 = 255 ∧ hugeintByte (addr4 255 0 1 200) 1 = 0 ∧
    hugeintByte (addr4 255 0 1 200) 2 = 1 ∧ hugeintByte (addr4 255 0 1 200) 3 = 200 :=
  c4_roundTrip 255 0 1 200 (by decide) (by decide) (by decide) (by decide)

/-- Claim C9: every input of four valid dot-separated octet runs followed by `/`
parses successfully no matter what bytes (if any) follow the slash; the mask
is taken from the fourth octet's digit run, not from any text after the
slash. -/
theorem c9_slashIgnored (s1 s2 s3 s4 tail : List Char)
    (h1 : s1 ≠ []) (h1d : s1.all isIPDigit = true) (h1v : digitsVal s1 ≤ 255)
    (h2 : s2 ≠ []) (h2d : s2.all isIPDigit = true) (h2v : digitsVal s2 ≤ 255)
    (h3 : s3 ≠ []) (h3d : s3.all isIPDigit = true) (h3v : digitsVal s3 ≤ 255)
    (h4 : s4 ≠ []) (h4d : s4.all isIPDigit = true) (h4v : digitsVal s4 ≤ 255) :
    TryParseIPAddress (s1 ++ '.' :: (s2 ++ '.' :: (s3 ++ '.' :: (s4 ++ '/' :: tail)))) =
      .ok { address := addr4 (digitsVal s1) (digitsVal s2) (digitsVal s3) (digitsVal s4),
            mask := (digitsVal s4 : Int) } := by
  rw [TryParseIPAddress]
  rw [parseLoop_four _ s1 s2 s3 s4 ('/' :: tail) h1 h1d h1v h2 h2d h2v h3 h3d h3v
    h4 h4d h4v (takeWhile_cons_false _ _ _ (by decide))]
  exact parseMask_slash _ s4 tail _ h4 h4d h4v

theorem c9_witness :
    TryParseIPAddress (['1'] ++ '.' :: (['2'] ++ '.' :: (['3'] ++ '.' ::
        (['4'] ++ '/' :: "abc".data)))) =
      .ok { address := addr4 (digitsVal ['1']) (digitsVal ['2']) (digitsVal ['3'])
              (digitsVal ['4']),
            mask := (digitsVal ['4'] : Int) } :=
  c9_slashIgnored ['1'] ['2'] ['3'] ['4'] "abc".data (by decide) (by decide) (by decide)
    (by decide) (by decide) (by decide) (by decide) (by decide) (by decide)
    (by decide) (by decide) (by decide)

/-- Claim C1: this claim fails on the code. For the well-formed input `1.2.3.4/9`
the parse succeeds but the stored mask is `4` - the fourth octet's digit run
re-converted - and not the `9` written after the slash: `parse_mask` never
advances the cursor past the `/` and reuses the `start..c` slice recorded for
the fourth octet, so no fresh digit run is scanned. -/
theorem c1_maskBugEval :
    TryParseIPAddress "1.2.3.4/9".data = .ok { address := 67305985, mask := 4 } := by
  decide

/-- Claim C2: this claim fails on the code. For `255.255.255.255` the `int32_t`
accumulator wraps negative on the fourth octet (`255 << 24` lands in the sign
bit) and the value is sign-extended into the 128-bit struct field, so the
resulting address is `-1`, not the non-negative zero-extended packing
`4294967295` the claim requires. -/
theorem c2_signBugEval :
    TryParseIPAddress "255.255.255.255".data = .ok { address := -1, mask := 32 } ∧
    (-1 : Int) < 0 :=
  ⟨by decide, by decide⟩

/-- Claim C3: if the rows before index `i` all convert (final state `st2`, no error,
`n` parser invocations) and the parser fails on row `i`'s string `bad` with
message `msg`, then the whole batch call returns with exactly the state `st2`
(earlier writes retained, the failing row and all later rows never written),
the parser's own error message, and `n + 1` parser invocations (none for any
row after `i`). -/
theorem c3_firstFailureShortCircuit (pre post : List (Option (List Char))) (i : Nat)
    (st st2 : BatchState) (n : Nat) (bad : List Char) (msg : String)
    (hpre : castLoop pre i st = (st2, none, n))
    (hbad : TryParseIPAddress bad = .error msg) :
    castLoop (pre ++ some bad :: post) i st = (st2, some msg, n + 1) := by
  induction pre generalizing i st n with
  | nil =>
    rw [castLoop] at hpre
    cases hpre
    rw [List.nil_append, castLoop, hbad]
  | cons row rows ih =>
    cases row with
    | none =>
      rw [castLoop] at hpre
      rw [List.cons_append, castLoop]
      exact ih _ _ _ hpre
    | some s =>
      rw [castLoop] at hpre
      rw [List.cons_append, castLoop]
      cases hp : TryParseIPAddress s with
      | error m =>
        rw [hp] at hpre
        simp at hpre
      | ok v =>
        rw [hp] at hpre
        dsimp only at hpre ⊢
        rcases hcl : castLoop rows (i + 1)
            { st with addressData := st.addressData.set i v.address,
                      maskData := st.maskData.set i v.mask } with ⟨ra, rb, rc⟩
        rw [hcl] at hpre
        obtain ⟨h1, h2, h3⟩ : ra = st2 ∧ rb = none ∧ rc + 1 = n := by
          simpa using hpre
        rw [← h3, ih (i + 1) _ rc (by rw [hcl, h1, h2])]

theorem c3_witness :
    castLoop ([some "1.2.3.4".data, none] ++ some "bad".data :: [some "9.9.9.9".data]) 0
        { addressData := [0, 0, 0, 0], maskData := [0, 0, 0, 0],
          nullMask := [false, false, false, false] } =
      ({ addressData := [67305985, 0, 0, 0], maskData := [32, 0, 0, 0],
         nullMask := [false, true, false, false] },
       some "Failed to convert string \"bad\" to inet: Expected a number", 1 + 1) :=
  c3_firstFailureShortCircuit [some "1.2.3.4".data, none] [some "9.9.9.9".data] 0
    { addressData := [0, 0, 0, 0], maskData := [0, 0, 0, 0],
      nullMask := [false, false, false, false] }
    { addressData := [67305985, 0, 0, 0], maskData := [32, 0, 0, 0],
      nullMask := [false, true, false, false] }
    1 "bad".data "Failed to convert string \"bad\" to inet: Expected a number"
    (by decide) (by decide)

/-- Claim C5: a null input row is marked null in the output and skipped - the
parser is not invoked for it and it contributes no error - and a batch of `n`
null rows only sets the output null flags for its rows, leaves the address
and mask buffers untouched, performs zero parser invocations and succeeds. -/
theorem c5_nullRows :
    (∀ rest i st, castLoop (none :: rest) i st =
      castLoop rest (i + 1) { st with nullMask := st.nullMask.set i true }) ∧
    (∀ n i st, castLoop (List.replicate n (none : Option (List Char))) i st =
      ({ st with nullMask := setTrueRange st.nullMask i n }, none, 0)) := by
  constructor
  · intro rest i st
    rfl
  · intro n
    induction n with
    | zero => intro i st; rfl
    | succ m ih =>
      intro i st
      rw [List.replicate_succ]
      have hstep : castLoop (none :: List.replicate m none) i st =
          castLoop (List.replicate m none) (i + 1)
            { st with nullMask := st.nullMask.set i true } := rfl
      rw [hstep, ih]
      rfl

/-- Claim C6: the reverse conversion is a stub whose body is a single
`throw InternalException(...)` - every invocation, whatever the source column
and row count, raises the internal/unimplemented programming fault (an
escaping exception, not a soft error return and not a rendering). -/
theorem c6_reverseStub (source : List (Option IPAddress)) (count : Nat) :
    INETToVarcharCast source count = CastOutcome.thrown "INET to Varchar cast" := rfl

theorem stepBlock_number (input : List Char) (st : MState) (h : st.pc = Pc.parseNumberPc) :
    (∃ out, stepBlock input st = .inr out) ∨
    (∃ st2, stepBlock input st = .inl st2 ∧ st2.number_count = st.number_count + 1 ∧
      st2.pc = if st.number_count + 1 = 4 then Pc.parseMaskPc else Pc.parseDotPc) := by
  unfold stepBlock
  rw [h]
  dsimp only
  split
  · exact Or.inl ⟨_, rfl⟩
  · split
    · exact Or.inl ⟨_, rfl⟩
    · exact Or.inr ⟨_, rfl, rfl, rfl⟩

theorem stepBlock_dot (input : List Char) (st : MState) (h : st.pc = Pc.parseDotPc) :
    (∃ out, stepBlock input st = .inr out) ∨
    (∃ st2, stepBlock input st = .inl st2 ∧ st2.number_count = st.number_count ∧
      st2.pc = Pc.parseNumberPc) := by
  unfold stepBlock
  rw [h]
  dsimp only
  split
  · split
    · exact Or.inr ⟨_, rfl, rfl, rfl⟩
    · exact Or.inl ⟨_, rfl⟩
  · exact Or.inl ⟨_, rfl⟩

theorem stepBlock_mask (input : List Char) (st : MState) (h : st.pc = Pc.parseMaskPc) :
    ∃ out, stepBlock input st = .inr out := by
  unfold stepBlock
  rw [h]
  dsimp only
  split
  · split
    · split
      · exact ⟨_, rfl⟩
      · exact ⟨_, rfl⟩
    · exact ⟨_, rfl⟩
  · exact ⟨_, rfl⟩

theorem machineRun_succ (input : List Char) (f : Nat) (st : MState) :
    machineRun input (f + 1) st =
      match stepBlock input st with
      | .inr out => .inr out
      | .inl st2 => machineRun input f st2 := rfl

theorem machineRun_number (input : List Char) :
    ∀ m st, 1 ≤ m → st.pc = Pc.parseNumberPc → st.number_count + m = 4 →
    ∃ out, machineRun input (2 * m) st = Sum.inr out := by
  intro m
  induction m with
  | zero =>
    intro st h1 _ _
    exact absurd h1 (by omega)
  | succ m2 ih =>
    intro st _ hpc hcount
    rcases stepBlock_number input st hpc with ⟨out, hout⟩ | ⟨st2, hst2, hc2, hp2⟩
    · refine ⟨out, ?_⟩
      rw [show 2 * (m2 + 1) = 2 * m2 + 1 + 1 by ring, machineRun_succ, hout]
    · rw [show 2 * (m2 + 1) = 2 * m2 + 1 + 1 by ring, machineRun_succ, hst2]
      dsimp only
      by_cases hm : m2 = 0
      · subst hm
        have hmask : st2.pc = Pc.parseMaskPc := by
          rw [hp2, if_pos (by omega)]
        rcases stepBlock_mask input st2 hmask with ⟨out, hout⟩
        refine ⟨out, ?_⟩
        rw [machineRun_succ, hout]
      · have hdot : st2.pc = Pc.parseDotPc := by
          rw [hp2, if_neg (by omega)]
        rcases stepBlock_dot input st2 hdot with ⟨out, hout⟩ | ⟨st3, hst3, hc3, hp3⟩
        · refine ⟨out, ?_⟩
          rw [machineRun_succ, hout]
        · rw [machineRun_succ, hst3]
          dsimp only
          exact ih st3 (by omega) hp3 (by omega)

theorem take_takeWhile_length (l : List Char) (p : Char → Bool) :
    l.take (l.takeWhile p).length = l.takeWhile p := by
  induction l with
  | nil => rfl
  | cons a t ih =>
    by_cases h : p a <;> simp [List.takeWhile_cons, h, ih]

theorem drop_takeWhile_length (l : List Char) (p : Char → Bool) :
    l.drop (l.takeWhile p).length = l.dropWhile p := by
  induction l with
  | nil => rfl
  | cons a t ih =>
    by_cases h : p a <;> simp [List.takeWhile_cons, List.dropWhile_cons, h, ih]

theorem getElem_of_drop_cons (l : List Char) (c : Nat) (h : c < l.length) (ch : Char)
    (t : List Char) (hd : l.drop c = ch :: t) : l[c] = ch := by
  have h2 : (l.drop c).get ⟨0, by rw [hd]; simp⟩ = ch := by
    simp [hd]
  rw [← h2, List.get_eq_getElem, List.getElem_drop]
  simp

theorem stepBlock_number_eq (input : List Char) (c s0 k : Nat) (addr : Int) :
    stepBlock input
        { c := c, start := s0, number_count := k, address := addr,
          pc := Pc.parseNumberPc } =
      (if (input.drop c).takeWhile isIPDigit = [] then
        .inr (.error (IPAddressError input "Expected a number"))
      else
        match tryCastUInt8 ((input.drop c).takeWhile isIPDigit) with
        | none => .inr (.error (IPAddressError input "Expected a number between 0 and 255"))
        | some number =>
          .inl { c := c + ((input.drop c).takeWhile isIPDigit).length, start := c,
                 number_count := k + 1,
                 address := wrap32 (addr + (number : Int) * 2 ^ (8 * k)),
                 pc := if k + 1 = 4 then Pc.parseMaskPc else Pc.parseDotPc }) := by
  unfold stepBlock
  dsimp only
  by_cases h0 : (input.drop c).takeWhile isIPDigit = []
  · rw [if_pos (by rw [h0]; simp), if_pos h0]
  · rw [if_neg (by intro hc; refine h0 (List.length_eq_zero.mp ?_); omega), if_neg h0]
    rw [show c + ((input.drop c).takeWhile isIPDigit).length - c
        = ((input.drop c).takeWhile isIPDigit).length by omega]
    rw [take_takeWhile_length]

theorem stepBlock_dot_eq (input : List Char) (c s0 k : Nat) (addr : Int) :
    stepBlock input
        { c := c, start := s0, number_count := k, address := addr,
          pc := Pc.parseDotPc } =
      (match input.drop c with
      | [] => .inr (.error (IPAddressError input "Expected a dot"))
      | ch :: _ =>
        if ch = '.' then
          .inl { c := c + 1, start := s0, number_count := k, address := addr,
                 pc := Pc.parseNumberPc }
        else .inr (.error (IPAddressError input "Expected a dot"))) := by
  unfold stepBlock
  dsimp only
  cases hd : input.drop c with
  | nil =>
    rw [dif_neg (by rw [List.drop_eq_nil_iff] at hd; omega)]
  | cons ch t =>
    have hlt : c < input.length := by
      by_contra hle
      rw [List.drop_eq_nil_iff.mpr (by omega)] at hd
      cases hd
    rw [dif_pos hlt, getElem_of_drop_cons input c hlt ch t hd]

theorem stepBlock_mask_eq (input : List Char) (c s0 k : Nat) (addr : Int) :
    stepBlock input
        { c := c, start := s0, number_count := k, address := addr,
          pc := Pc.parseMaskPc } =
      (match input.drop c with
      | [] => .inr (.ok { address := addr, mask := 32 })
      | ch :: _ =>
        if ch = '/' then
          match tryCastUInt8 ((input.drop s0).take (c - s0)) with
          | some mask => .inr (.ok { address := addr, mask := (mask : Int) })
          | none => .inr (.error (IPAddressError input "Expected a number between 0 and 255"))
        else .inr (.error (IPAddressError input "Expected a slash"))) := by
  unfold stepBlock
  dsimp only
  cases hd : input.drop c with
  | nil =>
    rw [dif_neg (by rw [List.drop_eq_nil_iff] at hd; omega)]
  | cons ch t =>
    have hlt : c < input.length := by
      by_contra hle
      rw [List.drop_eq_nil_iff.mpr (by omega)] at hd
      cases hd
    rw [dif_pos hlt, getElem_of_drop_cons input c hlt ch t hd]

theorem drop_add_one_of_drop_cons (l : List Char) (c : Nat) (ch : Char) (t : List Char)
    (hd : l.drop c = ch :: t) : l.drop (c + 1) = t := by
  rw [← List.drop_drop, hd]
  rfl

/-- Simulation of the cursor-based step machine by the suffix-recursive
parser: from any `parse_number` state whose cursor suffix is `input.drop c`
and whose remaining octet capacity matches, the machine returns, within the
corresponding block-step budget, exactly the value of `parseLoop` on that
suffix. In particular the two embeddings of `TryParseIPAddress` agree. -/
theorem machineRun_simulates (input : List Char) :
    ∀ left k c s0 addr, k + left = 3 →
      machineRun input (2 * (left + 1))
          { c := c, start := s0, number_count := k,
            address := addr, pc := Pc.parseNumberPc }
        = Sum.inr (parseLoop input (input.drop c) k addr left) := by
  intro left
  induction left with
  | zero =>
    intro k c s0 addr hk
    have hk3 : k = 3 := by omega
    subst hk3
    show machineRun input (1 + 1) _ = _
    rw [machineRun_succ, stepBlock_number_eq, parseLoop]
    by_cases h0 : (input.drop c).takeWhile isIPDigit = []
    · simp only [if_pos h0]
    · simp only [if_neg h0]
      cases htc : tryCastUInt8 ((input.drop c).takeWhile isIPDigit) with
      | none => rfl
      | some number =>
        dsimp only
        simp only [show (3 + 1 = 4) = True by simp, if_true, reduceIte]
        rw [machineRun_succ, stepBlock_mask_eq]
        have hdrop : input.drop (c + ((input.drop c).takeWhile isIPDigit).length) =
            (input.drop c).dropWhile isIPDigit := by
          rw [← List.drop_drop, drop_takeWhile_length]
        rw [hdrop]
        rw [show c + ((input.drop c).takeWhile isIPDigit).length - c
            = ((input.drop c).takeWhile isIPDigit).length by omega]
        rw [take_takeWhile_length, parseMask.eq_def]
        cases hdw : (input.drop c).dropWhile isIPDigit with
        | nil => rfl
        | cons ch t =>
          by_cases hch : ch = '/'
          · simp only [if_pos hch]
            cases tryCastUInt8 ((input.drop c).takeWhile isIPDigit) <;> rfl
          · simp only [if_neg hch]
  | succ left2 ih =>
    intro k c s0 addr hk
    have hk4 : ¬ k + 1 = 4 := by omega
    rw [show 2 * (left2 + 1 + 1) = 2 * (left2 + 1) + 1 + 1 by ring]
    rw [machineRun_succ, stepBlock_number_eq, parseLoop]
    by_cases h0 : (input.drop c).takeWhile isIPDigit = []
    · simp only [if_pos h0]
    · simp only [if_neg h0]
      cases htc : tryCastUInt8 ((input.drop c).takeWhile isIPDigit) with
      | none => rfl
      | some number =>
        dsimp only
        simp only [if_neg hk4]
        rw [machineRun_succ, stepBlock_dot_eq]
        have hdrop : input.drop (c + ((input.drop c).takeWhile isIPDigit).length) =
            (input.drop c).dropWhile isIPDigit := by
          rw [← List.drop_drop, drop_takeWhile_length]
        rw [hdrop]
        cases hdw : (input.drop c).dropWhile isIPDigit with
        | nil => rfl
        | cons ch rest3 =>
          by_cases hch : ch = '.'
          · simp only [if_pos hch]
            have ht : input.drop (c + ((input.drop c).takeWhile isIPDigit).length + 1)
                = rest3 := by
              refine drop_add_one_of_drop_cons input _ ch rest3 ?_
              rw [hdrop, hdw]
            have := ih (k + 1) (c + ((input.drop c).takeWhile isIPDigit).length + 1) c
              (wrap32 (addr + (number : Int) * 2 ^ (8 * k))) (by omega)
            rw [ht] at this
            rw [this]
          · simp only [if_neg hch]

/-- Agreement of the two embeddings of `TryParseIPAddress`: running the
labeled-block machine from the initial state returns, within 8 block steps,
exactly the suffix-recursive parser's result, on every input. -/
theorem machine_parser_agree (input : List Char) :
    machineRun input 8 initMState = Sum.inr (TryParseIPAddress input) :=
  machineRun_simulates input 3 0 0 0 0 rfl

/-- Claim C10: the goto-structured scanner terminates on every input byte sequence:
starting from the initial state, execution of the labeled blocks always
returns within 8 block steps (each octet scan is a terminating maximal-run
computation, the octet count is bounded by four, and every block either jumps
forward in the `number -> dot -> number` cycle consuming an octet or
returns). -/
theorem c10_terminates (input : List Char) :
    ∃ out, machineRun input 8 initMState = Sum.inr out :=
  machineRun_number input 4 initMState (by omega) rfl rfl

end Inet

namespace Inet

/-! Sanity evaluations of the embedding on the spec's own examples, and
agreement between the suffix-recursive parser and the cursor-based step
machine on concrete inputs. -/

theorem sanity_plain : TryParseIPAddress "1.2.3.4".data
    = .ok { address := 67305985, mask := 32 } := by decide

theorem sanity_outOfRange : TryParseIPAddress "256.1.1.1".data
    = .error "Failed to convert string \"256.1.1.1\" to inet: Expected a number between 0 and 255" := by
  decide

theorem sanity_slashThenEnd : TryParseIPAddress "1.2.3.4/".data
    = .ok { address := 67305985, mask := 4 } := by decide

theorem sanity_expectedSlash : TryParseIPAddress "1.2.3.4x".data
    = .error "Failed to convert string \"1.2.3.4x\" to inet: Expected a slash" := by decide

theorem sanity_fifthOctet : TryParseIPAddress "1.2.3.4.5".data
    = .error "Failed to convert string \"1.2.3.4.5\" to inet: Expected a slash" := by decide

theorem sanity_machine_plain : machineRun "1.2.3.4".data 8 initMState
    = Sum.inr (TryParseIPAddress "1.2.3.4".data) := by decide

theorem sanity_machine_maskBug : machineRun "1.2.3.4/9".data 8 initMState
    = Sum.inr (TryParseIPAddress "1.2.3.4/9".data) := by decide

theorem sanity_machine_sign : machineRun "255.255.255.255".data 8 initMState
    = Sum.inr (TryParseIPAddress "255.255.255.255".data) := by decide

theorem sanity_machine_threeOctets : machineRun "1.2.3".data 8 initMState
    = Sum.inr (TryParseIPAddress "1.2.3".data) := by decide

theorem sanity_machine_empty : machineRun "".data 8 initMState
    = Sum.inr (TryParseIPAddress "".data) := by decide

theorem sanity_machine_junkAfterSlash : machineRun "1.2.3.4/abc".data 8 initMState
    = Sum.inr (TryParseIPAddress "1.2.3.4/abc".data) := by decide

end Inet
